import Mathlib

/-!
Verification development for `scripts/mitm_codex_sse_logger.py`, a mitmproxy
addon that inspects Codex SSE flows and logs model names.  The Python source
is shallowly embedded below: JSON values become an inductive type, Python
dictionaries become association lists (a real `dict` has unique keys, so
first-match lookup coincides with `dict.get`), Python truthiness becomes a
boolean function on JSON values, and the two host callbacks become pure
functions from a flow record to a trace of log events, flow-object accesses
and an optional uncaught Python exception.
-/

set_option autoImplicit false

namespace MitmCodex

/-- JSON values as decoded by `json.loads`.  Numbers are restricted to
integers; the script's logic only inspects numbers through truthiness and
object/non-object shape, and every concrete input used below is an integer. -/
inductive Json where
  | null
  | bool (b : Bool)
  | num (n : Int)
  | str (s : String)
  | arr (xs : List Json)
  | obj (kvs : List (String × Json))

/-- Shape test corresponding to Python `isinstance(x, dict)`. -/
def Json.isObj : Json → Bool
  | Json.obj _ => true
  | _ => false

/-- Python truthiness (`bool(x)`) for JSON values: `None`, `False`, `0`,
`""`, `[]` and `{}` are falsy, everything else truthy. -/
def Json.truthy : Json → Bool
  | Json.null => false
  | Json.bool b => b
  | Json.num n => n != 0
  | Json.str s => s ≠ ""
  | Json.arr xs => !xs.isEmpty
  | Json.obj kvs => !kvs.isEmpty

/-- Lookup in an association list modelling a Python `dict`: `d.get(k)`
returns `None` when the key is absent.  Python dicts hold each key at most
once, so first-match lookup is exact. -/
def dictGet : List (String × Json) → String → Option Json
  | [], _ => none
  | kv :: rest, k => if kv.1 = k then some kv.2 else dictGet rest k

/-- Lookup with a default, modelling `d.get(k, default)`. -/
def dictGetD (kvs : List (String × Json)) (k : String) (d : Json) : Json :=
  (dictGet kvs k).getD d

/-- Truthiness of a Python variable that may hold `None` (modelled as
`Option Json`): `None` is falsy, otherwise defer to the value. -/
def optTruthy : Option Json → Bool
  | none => false
  | some j => j.truthy

/-- Remove a key from a dict model; used to state that a falsy binding is
treated identically to an absent one. -/
def removeKey (k : String) : List (String × Json) → List (String × Json)
  | [] => []
  | kv :: rest => if kv.1 = k then removeKey k rest else kv :: removeKey k rest

/-! ### Python string primitives used by the script -/

/-- Characters stripped by Python `str.strip()` (the whitespace set, covering
the ASCII cases plus the common Unicode spaces). -/
def pyIsSpace (c : Char) : Bool :=
  c = ' ' ∨ c = '\t' ∨ c = '\n' ∨ c = '\r' ∨ c = '\x0b' ∨ c = '\x0c' ∨
  c = '\x1c' ∨ c = '\x1d' ∨ c = '\x1e' ∨ c = '\x1f' ∨ c = '\x85' ∨ c = ' ' ∨
  c = ' ' ∨ c = ' ' ∨ c = '　'

/-- Python `str.strip()`: drop leading and trailing whitespace. -/
def pyStrip (s : String) : String :=
  String.mk (((s.toList.dropWhile pyIsSpace).reverse.dropWhile pyIsSpace).reverse)

/-- Line-boundary characters recognised by Python `str.splitlines()`. -/
def pyIsLineBreak (c : Char) : Bool :=
  c = '\n' ∨ c = '\r' ∨ c = '\x0b' ∨ c = '\x0c' ∨ c = '\x1c' ∨ c = '\x1d' ∨
  c = '\x1e' ∨ c = '\x85' ∨ c = ' ' ∨ c = ' '

/-- Worker for `pySplitlines`; `acc` holds the current line reversed.
`\r\n` counts as a single boundary. -/
def pySplitlinesAux : List Char → List Char → List String
  | [], acc => if acc = [] then [] else [String.mk acc.reverse]
  | '\r' :: '\n' :: rest, acc => String.mk acc.reverse :: pySplitlinesAux rest []
  | c :: rest, acc =>
    if pyIsLineBreak c then String.mk acc.reverse :: pySplitlinesAux rest []
    else pySplitlinesAux rest (c :: acc)

/-- Python `str.splitlines()` (without keepends). -/
def pySplitlines (s : String) : List String :=
  pySplitlinesAux s.toList []

/-- Python `str.startswith(p)` as a character-prefix test. -/
def pyStartsWith (s p : String) : Bool :=
  p.toList.isPrefixOf s.toList

/-- Python character slicing `s[n:]`. -/
def pyDrop (s : String) (n : Nat) : String :=
  String.mk (s.toList.drop n)

/-- Python substring containment `needle in hay`. -/
def strContains (hay needle : String) : Bool :=
  (List.range (hay.toList.length + 1)).any
    (fun i => needle.toList.isPrefixOf (hay.toList.drop i))

/-! ### A model of `json.loads`

The script calls the standard-library JSON decoder.  The decoder itself is
not part of this repository, so the theorems below are stated for an
arbitrary decoder `loads : String → Except String Json` wherever the claim
quantifies over bodies; the concrete recursive-descent parser here is a
model of `json.loads` used to evaluate the claims' concrete examples.  It
supports the JSON fragment those examples use (null, booleans, integers,
strings with simple escapes, arrays, objects with last-binding-wins keys,
JSON whitespace); any other input is a decode error. -/

/-- Skip JSON whitespace (space, tab, newline, carriage return). -/
def skipWs : List Char → List Char
  | c :: rest =>
    if c = ' ' ∨ c = '\t' ∨ c = '\n' ∨ c = '\r' then skipWs rest else c :: rest
  | [] => []

/-- Parse the body of a JSON string after the opening quote, handling the
single-character escapes. -/
def parseStrAux : List Char → List Char → Option (String × List Char)
  | [], _ => none
  | '"' :: rest, acc => some (String.mk acc.reverse, rest)
  | '\\' :: c :: rest, acc =>
    if c = '"' then parseStrAux rest ('"' :: acc)
    else if c = '\\' then parseStrAux rest ('\\' :: acc)
    else if c = '/' then parseStrAux rest ('/' :: acc)
    else if c = 'n' then parseStrAux rest ('\n' :: acc)
    else if c = 't' then parseStrAux rest ('\t' :: acc)
    else if c = 'r' then parseStrAux rest ('\r' :: acc)
    else if c = 'b' then parseStrAux rest ('\x08' :: acc)
    else if c = 'f' then parseStrAux rest ('\x0c' :: acc)
    else none
  | c :: rest, acc => parseStrAux rest (c :: acc)

/-- Numeric value of a digit run, most significant digit first. -/
def digitsVal (cs : List Char) : Nat :=
  cs.foldl (fun n c => n * 10 + (c.toNat - 48)) 0

/-- Parse a nonempty run of decimal digits. -/
def parseDigits : List Char → List Char → Option (Nat × List Char)
  | c :: rest, acc =>
    if c.isDigit then parseDigits rest (c :: acc)
    else if acc = [] then none
    else some (digitsVal acc.reverse, c :: rest)
  | [], acc => if acc = [] then none else some (digitsVal acc.reverse, [])

/-- Insert a binding into an object under construction: Python dict
semantics, the last binding for a key wins and keeps its insertion slot at
the end. -/
def objInsert (kvs : List (String × Json)) (k : String) (v : Json) :
    List (String × Json) :=
  kvs.filter (fun kv => kv.1 ≠ k) ++ [(k, v)]

mutual

/-- Parse one JSON value from the front of the input. -/
def parseVal : Nat → List Char → Option (Json × List Char)
  | 0, _ => none
  | fuel + 1, cs =>
    match skipWs cs with
    | 'n' :: 'u' :: 'l' :: 'l' :: rest => some (Json.null, rest)
    | 't' :: 'r' :: 'u' :: 'e' :: rest => some (Json.bool true, rest)
    | 'f' :: 'a' :: 'l' :: 's' :: 'e' :: rest => some (Json.bool false, rest)
    | '"' :: rest => (parseStrAux rest []).map (fun p => (Json.str p.1, p.2))
    | '[' :: rest =>
      (match skipWs rest with
       | ']' :: rest2 => some (Json.arr [], rest2)
       | cs2 =>
         (parseArrItems fuel cs2 []).map (fun p => (Json.arr p.1, p.2)))
    | '{' :: rest =>
      (match skipWs rest with
       | '}' :: rest2 => some (Json.obj [], rest2)
       | cs2 =>
         (parseObjItems fuel cs2 []).map (fun p => (Json.obj p.1, p.2)))
    | '-' :: rest =>
      (parseDigits rest []).map (fun p => (Json.num (-(p.1 : Int)), p.2))
    | cs2 =>
      (parseDigits cs2 []).map (fun p => (Json.num (p.1 : Int), p.2))

/-- Parse the remaining items of a non-empty array, starting at a value. -/
def parseArrItems : Nat → List Char → List Json → Option (List Json × List Char)
  | 0, _, _ => none
  | fuel + 1, cs, acc =>
    match parseVal fuel cs with
    | none => none
    | some (v, rest) =>
      match skipWs rest with
      | ',' :: rest2 => parseArrItems fuel rest2 (v :: acc)
      | ']' :: rest2 => some ((v :: acc).reverse, rest2)
      | _ => none

/-- Parse the remaining members of a non-empty object, starting at a key. -/
def parseObjItems : Nat → List Char → List (String × Json) →
    Option (List (String × Json) × List Char)
  | 0, _, _ => none
  | fuel + 1, cs, acc =>
    match skipWs cs with
    | '"' :: rest =>
      (match parseStrAux rest [] with
       | none => none
       | some (k, rest2) =>
         match skipWs rest2 with
         | ':' :: rest3 =>
           (match parseVal fuel rest3 with
            | none => none
            | some (v, rest4) =>
              match skipWs rest4 with
              | ',' :: rest5 => parseObjItems fuel rest5 (objInsert acc k v)
              | '}' :: rest5 => some (objInsert acc k v, rest5)
              | _ => none)
         | _ => none)
    | _ => none

end

/-- Model of Python `json.loads` on the supported fragment: a decoded value
must consume the whole input up to trailing JSON whitespace. -/
def jsonLoads (s : String) : Except String Json :=
  match parseVal (s.length + 1) s.toList with
  | some (j, rest) =>
    if skipWs rest = [] then Except.ok j else Except.error "Extra data"
  | none => Except.error "Expecting value"

/-! ### The host's flow objects and the addon's observable behaviour -/

/-- The request half of a mitmproxy flow, as read by the script:
`pretty_url` (line 57), `method` (line 114) and the body text returned by
`get_text()` (line 118, `none` when the request has no content). -/
structure Request where
  pretty_url : String
  method : String
  body : Option String

/-- The response half of a flow, as read by the script: `status_code` and
`headers` (lines 70–71) and the body text from `get_text(strict=False)`
(line 77). -/
structure Response where
  status_code : Nat
  headers : List (String × String)
  body : String

/-- One HTTP flow delivered by the host; `response` is `none` before a
response exists (the `if not flow.response` guard at line 64). -/
structure Flow where
  id : String
  request : Request
  response : Option Response

/-- Uncaught Python exceptions the script can raise. -/
inductive PyErr where
  | attributeError
deriving DecidableEq

/-- Log records emitted through `ctx.log`, one constructor per call site:
the decode warning (line 38), the unconditional response summary
(lines 67–72), the per-payload model line (lines 98–105) and the request
line (lines 123–129). -/
inductive LogEvent where
  | warnDecode (err : String) (chunk : String)
  | infoResponseSummary (flowId : String) (status : Nat)
      (headers : List (String × String))
  | infoSseModel (flowId : String) (event : Json) (model : Json)
      (reasoning : Option Json) (url : String)
  | infoRequest (flowId : String) (promptCacheKey : Option Json)
      (includeField : Option Json) (keys : List String)

/-- Operations the script performs on the host-owned flow object, in source
order.  `mutate` is in the vocabulary so that "the callback never mutates
the flow" is expressible; the source contains no attribute assignment, so no
trace below ever contains it. -/
inductive FlowAccess where
  | respPresent
  | flowId
  | respStatus
  | respHeaders
  | respBody
  | reqUrl
  | reqMethod
  | reqBody
  | mutate (field : String)

/-- Does an access write to the flow?  Only `mutate` does. -/
def FlowAccess.isMutate : FlowAccess → Bool
  | FlowAccess.mutate _ => true
  | _ => false

/-- Is an access a read of the response body text (`get_text`, line 77)? -/
def FlowAccess.isRespBodyRead : FlowAccess → Bool
  | FlowAccess.respBody => true
  | _ => false

/-- Is an access a read of the request body text (`get_text`, line 118)? -/
def FlowAccess.isReqBodyRead : FlowAccess → Bool
  | FlowAccess.reqBody => true
  | _ => false

/-- Observable outcome of one callback invocation: the log events emitted,
the uncaught exception if one escaped, and the flow accesses performed. -/
structure Trace where
  logs : List LogEvent
  err : Option PyErr
  acc : List FlowAccess

/-- Prefix a trace with earlier log events and accesses. -/
def Trace.prepend (l : List LogEvent) (a : List FlowAccess) (t : Trace) : Trace :=
  ⟨l ++ t.logs, t.err, a ++ t.acc⟩

/-! ### Translation of the script, function by function -/

/-- Line filter of `_iter_sse_payloads` (lines 28–34): the payload texts on
which `json.loads` is invoked, in order.  Each surviving text comes from a
line whose stripped form starts with `data:`, with the prefix removed and
whitespace stripped, and is neither empty nor the `[DONE]` sentinel. -/
def ssePayloadTexts (body : String) : List String :=
  (pySplitlines body).filterMap (fun raw_line =>
    let line := pyStrip raw_line
    if pyStartsWith line "data:" then
      let payload := pyStrip (pyDrop line 5)
      if payload = "" ∨ payload = "[DONE]" then none else some payload
    else none)

/-- One step of the generator `_iter_sse_payloads` per decoded line:
a decode-failure warning (lines 35–39), a yielded `(event_type, payload)`
pair (lines 40–41), or the `AttributeError` raised by
`parsed.get("type", "unknown")` when `json.loads` returned a non-dict
(line 40).  The raise ends the stream, so nothing follows it. -/
inductive SseStep where
  | warn (err : String) (chunk : String)
  | yield (event : Json) (payload : List (String × Json))
  | raiseAttr

/-- Run the decode loop of `_iter_sse_payloads` (lines 35–41) over the
surviving payload texts. -/
def sseSteps (loads : String → Except String Json) :
    List String → List SseStep
  | [] => []
  | p :: rest =>
    match loads p with
    | Except.error e => SseStep.warn e p :: sseSteps loads rest
    | Except.ok (Json.obj kvs) =>
        SseStep.yield (dictGetD kvs "type" (Json.str "unknown")) kvs ::
          sseSteps loads rest
    | Except.ok _ => [SseStep.raiseAttr]

/-- `_iter_sse_payloads` (lines 20–41), parameterised by the JSON decoder. -/
def _iter_sse_payloads (loads : String → Except String Json) (body : String) :
    List SseStep :=
  sseSteps loads (ssePayloadTexts body)

/-- `_extract_model` (lines 44–53). -/
def _extract_model (payload : List (String × Json)) : Option Json :=
  let model := dictGet payload "model"
  if optTruthy model then model
  else
    match dictGet payload "response" with
    | some (Json.obj r) => dictGet r "model"
    | _ => none

/-- The expression
`response.get("reasoning") or response.get("metadata", {}).get("reasoning")`
(lines 89–91), given that `response` is the dict `rs`.  When `reasoning` is
falsy and `metadata` is bound to a non-dict, the `.get("reasoning")` call on
it raises `AttributeError`. -/
def reasoningFromResponse (rs : List (String × Json)) :
    Except PyErr (Option Json) :=
  let left := dictGet rs "reasoning"
  if optTruthy left then Except.ok left
  else
    match dictGetD rs "metadata" (Json.obj []) with
    | Json.obj m => Except.ok (dictGet m "reasoning")
    | _ => Except.error PyErr.attributeError

/-- The expression `reasoning.get("effort") or reasoning.get("effort_level")`
(lines 93–95), given that `reasoning` is the dict `rk`. -/
def effortFromReasoning (rk : List (String × Json)) : Option Json :=
  let e := dictGet rk "effort"
  if optTruthy e then e else dictGet rk "effort_level"

/-- The whole `reasoning_effort` computation of the response loop body
(lines 86–95) for one payload dict. -/
def reasoningEffortOf (payload : List (String × Json)) :
    Except PyErr (Option Json) :=
  match dictGet payload "response" with
  | some (Json.obj rs) =>
    (match reasoningFromResponse rs with
     | Except.error e => Except.error e
     | Except.ok reasoning =>
       match reasoning with
       | some (Json.obj rk) => Except.ok (effortFromReasoning rk)
       | _ => Except.ok none)
  | _ => Except.ok none

/-- The URL test of `_looks_like_codex` (line 58). -/
def looksLikeCodexUrl (url : String) : Bool :=
  strContains url "chatgpt.com" && strContains url "/backend-api/codex"

/-- `_looks_like_codex` (lines 56–58). -/
def _looks_like_codex (flow : Flow) : Bool :=
  looksLikeCodexUrl flow.request.pretty_url

/-- The `for` loop of `response` (lines 84–105), consuming the generator
steps lazily: a warning step logs and continues; a generator raise escapes;
for a yielded pair the loop extracts the model (line 85), computes the
reasoning effort (lines 86–95, which may raise), and logs the model line
when the model is truthy (lines 97–105, reading `flow.id` and
`flow.request.pretty_url` again). -/
def responseLoop (fid url : String) : List SseStep → Trace
  | [] => ⟨[], none, []⟩
  | SseStep.warn e chunk :: rest =>
    Trace.prepend [LogEvent.warnDecode e chunk] [] (responseLoop fid url rest)
  | SseStep.raiseAttr :: _ => ⟨[], some PyErr.attributeError, []⟩
  | SseStep.yield et kvs :: rest =>
    let model := _extract_model kvs
    match reasoningEffortOf kvs with
    | Except.error e => ⟨[], some e, []⟩
    | Except.ok reff =>
      match model with
      | some m =>
        if m.truthy then
          Trace.prepend [LogEvent.infoSseModel fid et m reff url]
            [FlowAccess.flowId, FlowAccess.reqUrl] (responseLoop fid url rest)
        else responseLoop fid url rest
      | none => responseLoop fid url rest

/-- The `response` callback (lines 61–105), parameterised by the JSON
decoder.  The side-file write (lines 78–83) swallows every exception and
emits nothing observable, so it contributes nothing to the trace. -/
def response_cb (loads : String → Except String Json) (flow : Flow) : Trace :=
  match flow.response with
  | none => ⟨[], none, [FlowAccess.respPresent]⟩
  | some resp =>
    let summary :=
      LogEvent.infoResponseSummary flow.id resp.status_code resp.headers
    let headAcc := [FlowAccess.respPresent, FlowAccess.flowId,
      FlowAccess.respStatus, FlowAccess.respHeaders, FlowAccess.reqUrl]
    if _looks_like_codex flow then
      Trace.prepend [summary] (headAcc ++ [FlowAccess.respBody])
        (responseLoop flow.id flow.request.pretty_url
          (_iter_sse_payloads loads resp.body))
    else ⟨[summary], none, headAcc⟩

/-- The `request` callback (lines 108–129), parameterised by the JSON
decoder.  The `try` block covers only `get_text` and `json.loads`
(lines 117–121); a missing body makes `json.loads(None)` raise `TypeError`,
caught there.  The `payload.get`/`payload.keys` calls in the log statement
(lines 123–129) are outside the `try`, so a non-dict payload raises
`AttributeError` after `flow.id` has been read. -/
def request_cb (loads : String → Except String Json) (flow : Flow) : Trace :=
  if ¬ _looks_like_codex flow then ⟨[], none, [FlowAccess.reqUrl]⟩
  else if flow.request.method ≠ "POST" then
    ⟨[], none, [FlowAccess.reqUrl, FlowAccess.reqMethod]⟩
  else
    match flow.request.body with
    | none => ⟨[], none, [FlowAccess.reqUrl, FlowAccess.reqMethod,
        FlowAccess.reqBody]⟩
    | some b =>
      match loads b with
      | Except.error _ => ⟨[], none, [FlowAccess.reqUrl, FlowAccess.reqMethod,
          FlowAccess.reqBody]⟩
      | Except.ok (Json.obj kvs) =>
        ⟨[LogEvent.infoRequest flow.id (dictGet kvs "prompt_cache_key")
            (dictGet kvs "include") (kvs.map (fun kv => kv.1))],
         none,
         [FlowAccess.reqUrl, FlowAccess.reqMethod, FlowAccess.reqBody,
          FlowAccess.flowId]⟩
      | Except.ok _ =>
        ⟨[], some PyErr.attributeError,
         [FlowAccess.reqUrl, FlowAccess.reqMethod, FlowAccess.reqBody,
          FlowAccess.flowId]⟩

/-! ### Spec-side definitions

Transcriptions of §4.2 of the specification, written from the spec's words
to be compared with the source functions above.  The spec's lookups follow
the Python convention it states in §4.2 ("Absence at any step yields an
empty/undefined result"): a key bound to a falsy value resolves like an
absent key. -/

/-- Transcription of the spec's model rule: prefer the payload's top-level
`model` field; if absent or empty, fall back to `response.model` when
`response` is present and is itself an object; otherwise no model. -/
def spec_extract_model (payload : List (String × Json)) : Option Json :=
  let fromResponse : Option Json :=
    match dictGet payload "response" with
    | some (Json.obj rs) => dictGet rs "model"
    | _ => none
  match dictGet payload "model" with
  | some m => if m.truthy then some m else fromResponse
  | none => fromResponse

/-- Transcription of the spec's resolution of the reasoning value: look
first at `response.reasoning`, then at `response.metadata.reasoning`. -/
def specResolvedReasoning (rs : List (String × Json)) : Option Json :=
  if optTruthy (dictGet rs "reasoning") then dictGet rs "reasoning"
  else
    match dictGet rs "metadata" with
    | some (Json.obj m) => dictGet m "reasoning"
    | _ => none

/-- Transcription of the spec's reasoning-effort rule: only considered when
`response` is an object; resolve the reasoning value; if it is itself an
object, extract its `effort` field, falling back to `effort_level`. -/
def spec_reasoning_effort (payload : List (String × Json)) : Option Json :=
  match dictGet payload "response" with
  | some (Json.obj rs) =>
    (match specResolvedReasoning rs with
     | some (Json.obj rk) =>
       if optTruthy (dictGet rk "effort") then dictGet rk "effort"
       else dictGet rk "effort_level"
     | _ => none)
  | _ => none

/-- Decoded payloads on which the response loop body cannot raise: the
payload is a JSON object and, when its `response` field is an object whose
`reasoning` lookup is falsy, any `metadata` binding is an object. -/
def payloadSafe : Json → Bool
  | Json.obj kvs =>
    (match dictGet kvs "response" with
     | some (Json.obj rs) =>
       optTruthy (dictGet rs "reasoning") ||
         (match dictGet rs "metadata" with
          | some v => v.isObj
          | none => true)
     | _ => true)
  | _ => false

/-! ### Concrete fixtures used by witnesses and counterexamples -/

/-- A classified flow whose response body has a `data:` line decoding to the
JSON number `5` — valid JSON that is not an object. -/
def flowDataFive : Flow :=
  ⟨"f1", ⟨"https://chatgpt.com/backend-api/codex/responses", "POST", none⟩,
   some ⟨200, [("content-type", "text/event-stream")], "data: 5"⟩⟩

/-- A classified POST flow whose request body is `[]` — valid JSON that is
not an object. -/
def flowBodyArr : Flow :=
  ⟨"f2", ⟨"https://chatgpt.com/backend-api/codex/responses", "POST",
    some "[]"⟩, none⟩

/-- A classified POST flow whose request body is not JSON at all. -/
def flowBodyBad : Flow :=
  ⟨"f3", ⟨"https://chatgpt.com/backend-api/codex/responses", "POST",
    some "\x7bnot json"⟩, none⟩

/-- A classified POST flow with a well-formed JSON-object request body. -/
def flowBodyObj : Flow :=
  ⟨"f4", ⟨"https://chatgpt.com/backend-api/codex/responses", "POST",
    some "\x7b\"prompt_cache_key\": \"abc\"\x7d"⟩, none⟩

/-- A classified flow with one well-formed SSE payload line and a `[DONE]`
sentinel line. -/
def flowSafe : Flow :=
  ⟨"f5", ⟨"https://chatgpt.com/backend-api/codex/responses", "GET", none⟩,
   some ⟨200, [],
     "data: \x7b\"type\": \"done\", \"model\": \"gpt-5\"\x7d\ndata: [DONE]"⟩⟩

/-- The spec's reasoning-effort example payload:
`{"response": {"metadata": {"reasoning": {"effort_level": "low"}}}}`. -/
def exReasoningPayload : List (String × Json) :=
  [("response", Json.obj [("metadata",
    Json.obj [("reasoning", Json.obj [("effort_level", Json.str "low")])])])]

/-- The spec's model example payload: `{"response": {"model": "gpt-5-mini"}}`. -/
def exModelPayload : List (String × Json) :=
  [("response", Json.obj [("model", Json.str "gpt-5-mini")])]

/-- Payload whose `model` key is present but bound to the empty string. -/
def exFalsyModel : List (String × Json) :=
  [("model", Json.str ""), ("response", Json.obj [("model", Json.str "m2")])]

/-- Response object whose `reasoning` key is present but bound to null. -/
def exFalsyReasoning : List (String × Json) :=
  [("reasoning", Json.null),
   ("metadata", Json.obj [("reasoning",
     Json.obj [("effort", Json.str "high")])])]

/-- Reasoning object whose `effort` key is present but bound to the empty
string. -/
def exFalsyEffort : List (String × Json) :=
  [("effort", Json.str ""), ("effort_level", Json.str "low")]

/-- Did an embedded Python computation finish without raising? -/
def exceptIsOk : Except PyErr (Option Json) → Bool
  | Except.ok _ => true
  | Except.error _ => false

/-! ### Dictionary helper lemmas -/

theorem dictGet_removeKey_self (k : String) (kvs : List (String × Json)) :
    dictGet (removeKey k kvs) k = none := by
  induction kvs with
  | nil => rfl
  | cons kv rest ih =>
    by_cases h : kv.1 = k <;> simp [removeKey, dictGet, h, ih]

theorem dictGet_removeKey_ne (k k' : String) (hne : k' ≠ k)
    (kvs : List (String × Json)) :
    dictGet (removeKey k kvs) k' = dictGet kvs k' := by
  induction kvs with
  | nil => rfl
  | cons kv rest ih =>
    have hkk : k ≠ k' := fun e => hne e.symm
    by_cases h : kv.1 = k
    · have h2 : kv.1 ≠ k' := by rw [h]; exact hkk
      simp [removeKey, dictGet, h, h2, hkk, ih]
    · by_cases h' : kv.1 = k' <;> simp [removeKey, dictGet, h, h', hne, hkk, ih]

/-- When `reasoningFromResponse` returns normally, its value is the spec's
resolved reasoning value. -/
theorem reasoningFromResponse_ok (rs : List (String × Json)) (r : Option Json)
    (h : reasoningFromResponse rs = Except.ok r) :
    r = specResolvedReasoning rs := by
  unfold reasoningFromResponse at h
  unfold specResolvedReasoning
  by_cases ht : optTruthy (dictGet rs "reasoning")
  · simp [ht] at h ⊢
    exact h.symm
  · simp [ht] at h ⊢
    cases hm : dictGet rs "metadata" with
    | none => simp [dictGetD, hm] at h; exact h.symm
    | some v =>
      cases v <;> simp_all [dictGetD, hm]

/-! ### Claim theorems -/

/-- C4: the model extractor returns the payload's top-level `model` field
when it is present and non-empty (truthy); when absent or empty it returns
`response.model` when `response` is present and an object, and otherwise no
model; on `{"response": {"model": "gpt-5-mini"}}` it returns
`"gpt-5-mini"`. -/
theorem C4_extract_model_refines_spec :
    (∀ kvs : List (String × Json),
      _extract_model kvs = spec_extract_model kvs) ∧
    _extract_model exModelPayload = some (Json.str "gpt-5-mini") := by
  constructor
  · intro kvs
    simp only [_extract_model, spec_extract_model]
    cases hm : dictGet kvs "model" with
    | none => simp [optTruthy]
    | some m => by_cases ht : m.truthy <;> simp [optTruthy, ht]
  · rfl

/-- C3: the reasoning-effort result is considered only when the payload's
`response` field is an object, resolved first from `response.reasoning` and
then from `response.metadata.reasoning`, and when the resolved value is an
object the result is its `effort` field falling back to `effort_level`;
whenever the response-loop computation returns normally, its value agrees
with that spec rule, and on the spec's example payload the result is
`"low"`. -/
theorem C3_reasoning_effort_refines_spec (payload : List (String × Json))
    (v : Option Json) (h : reasoningEffortOf payload = Except.ok v) :
    v = spec_reasoning_effort payload := by
  revert h
  unfold reasoningEffortOf spec_reasoning_effort
  cases hr : dictGet payload "response" with
  | none => intro h; injection h with h2; subst h2; rfl
  | some resp =>
    cases resp with
    | obj rs =>
      have hmain : ∀ w : Option Json,
          (match reasoningFromResponse rs with
           | Except.error e => (Except.error e : Except PyErr (Option Json))
           | Except.ok reasoning =>
             match reasoning with
             | some (Json.obj rk) => Except.ok (effortFromReasoning rk)
             | _ => Except.ok none) = Except.ok w →
          w = (match specResolvedReasoning rs with
               | some (Json.obj rk) =>
                 if optTruthy (dictGet rk "effort") = true then
                   dictGet rk "effort"
                 else dictGet rk "effort_level"
               | _ => none) := by
        intro w hw
        revert hw
        cases hf : reasoningFromResponse rs with
        | error e => intro hw; injection hw
        | ok r =>
          intro hw
          rw [← reasoningFromResponse_ok rs r hf]
          cases r with
          | none => injection hw with h2; subst h2; rfl
          | some j =>
            cases j
            all_goals (injection hw with h2; subst h2; rfl)
      intro h
      exact hmain v h
    | null => intro h; injection h with h2; subst h2; rfl
    | bool b => intro h; injection h with h2; subst h2; rfl
    | num n => intro h; injection h with h2; subst h2; rfl
    | str s => intro h; injection h with h2; subst h2; rfl
    | arr xs => intro h; injection h with h2; subst h2; rfl

/-- C3 witness: on the spec's example payload
`{"response": {"metadata": {"reasoning": {"effort_level": "low"}}}}` the
computation returns `"low"`, agreeing with the spec rule. -/
theorem C3_witness :
    reasoningEffortOf exReasoningPayload = Except.ok (some (Json.str "low")) ∧
    (some (Json.str "low") : Option Json) =
      spec_reasoning_effort exReasoningPayload :=
  ⟨rfl, C3_reasoning_effort_refines_spec exReasoningPayload
    (some (Json.str "low")) rfl⟩

/-- C5: the flow classifier returns true exactly when the URL contains both
the host-domain substring and the API-path substring, and the three example
URLs classify as the spec states. -/
theorem C5_classifier_requires_both_substrings :
    (∀ fl : Flow, _looks_like_codex fl =
      (strContains fl.request.pretty_url "chatgpt.com" &&
       strContains fl.request.pretty_url "/backend-api/codex")) ∧
    looksLikeCodexUrl "https://chatgpt.com/backend-api/codex/responses" = true ∧
    looksLikeCodexUrl "https://chatgpt.com/other" = false ∧
    looksLikeCodexUrl "https://example.com/backend-api/codex" = false := by
  refine ⟨fun fl => rfl, ?_, ?_, ?_⟩ <;> decide

/-- C6: the SSE producer passes to the decoder (and hence yields elements
for) only payload texts of trimmed lines beginning with `data:`, stripped of
the prefix and whitespace, non-empty and different from `[DONE]`; a body
with zero `data:` lines yields an empty sequence whatever the decoder does,
and a `data: [DONE]` body yields nothing and never consults the decoder. -/
theorem C6_sse_producer_filters_lines :
    (∀ (body : String) (p : String), p ∈ ssePayloadTexts body →
      p ≠ "" ∧ p ≠ "[DONE]" ∧
      ∃ raw ∈ pySplitlines body, pyStartsWith (pyStrip raw) "data:" = true ∧
        p = pyStrip (pyDrop (pyStrip raw) 5)) ∧
    (∀ (body : String) (loads : String → Except String Json),
      (∀ raw ∈ pySplitlines body, pyStartsWith (pyStrip raw) "data:" = false) →
      _iter_sse_payloads loads body = []) ∧
    (∀ loads : String → Except String Json,
      _iter_sse_payloads loads "data: [DONE]" = []) := by
  refine ⟨?_, ?_, ?_⟩
  · intro body p hp
    rw [ssePayloadTexts, List.mem_filterMap] at hp
    obtain ⟨raw, hraw, hf⟩ := hp
    by_cases hs : pyStartsWith (pyStrip raw) "data:"
    · simp only [hs, if_true] at hf
      by_cases hd : pyStrip (pyDrop (pyStrip raw) 5) = "" ∨
          pyStrip (pyDrop (pyStrip raw) 5) = "[DONE]"
      · simp [hd] at hf
      · simp only [hd, if_false] at hf
        push_neg at hd
        injection hf with hf2
        exact ⟨hf2 ▸ hd.1, hf2 ▸ hd.2, raw, hraw, hs, hf2.symm⟩
    · simp [hs] at hf
  · intro body loads h
    have htexts : ssePayloadTexts body = [] := by
      rw [ssePayloadTexts, List.filterMap_eq_nil_iff]
      intro raw hraw
      simp [h raw hraw]
    rw [_iter_sse_payloads, htexts]
    rfl
  · intro loads
    have htexts : ssePayloadTexts "data: [DONE]" = [] := by decide
    rw [_iter_sse_payloads, htexts]
    rfl

/-- C6 witness: a body with no `data:` line yields nothing, and a concrete
surviving payload text satisfies the line conditions. -/
theorem C6_witness :
    _iter_sse_payloads jsonLoads "hello\nworld" = [] ∧
    ("5" ≠ "" ∧ "5" ≠ "[DONE]" ∧
      ∃ raw ∈ pySplitlines "data: 5", pyStartsWith (pyStrip raw) "data:" = true ∧
        "5" = pyStrip (pyDrop (pyStrip raw) 5)) :=
  ⟨C6_sse_producer_filters_lines.2.1 "hello\nworld" jsonLoads (by decide),
   C6_sse_producer_filters_lines.1 "data: 5" "5" (by decide)⟩

/-- C7: when a payload text fails to decode, the producer emits the
diagnostic warning carrying the error message and the raw chunk and keeps
processing the remaining lines; concretely, a `data: {not json` line is
followed by the yields of the valid lines after it. -/
theorem C7_decode_failure_warns_and_continues :
    (∀ (loads : String → Except String Json) (e p : String)
        (rest : List String), loads p = Except.error e →
      sseSteps loads (p :: rest) = SseStep.warn e p :: sseSteps loads rest) ∧
    _iter_sse_payloads jsonLoads
        "data: \x7bnot json\ndata: \x7b\"type\": \"x\", \"model\": \"m\"\x7d" =
      [SseStep.warn "Expecting value" "\x7bnot json",
       SseStep.yield (Json.str "x")
         [("type", Json.str "x"), ("model", Json.str "m")]] := by
  constructor
  · intro loads e p rest h
    simp [sseSteps, h]
  · rfl

/-- C7 witness: the skip-and-continue rule applied to the concrete decoder
on the chunk `{not json`. -/
theorem C7_witness :
    sseSteps jsonLoads ["\x7bnot json", "\x7b\"model\": \"m\"\x7d"] =
      SseStep.warn "Expecting value" "\x7bnot json" ::
        sseSteps jsonLoads ["\x7b\"model\": \"m\"\x7d"] :=
  C7_decode_failure_warns_and_continues.1 jsonLoads "Expecting value"
    "\x7bnot json" ["\x7b\"model\": \"m\"\x7d"] rfl

/-- C8: whenever a response exists on the delivered flow, the basic summary
record (flow id, status code, headers) is the first log event of the
response callback, with or without classification. -/
theorem C8_summary_always_logged (loads : String → Except String Json)
    (flow : Flow) (resp : Response) (h : flow.response = some resp) :
    (response_cb loads flow).logs.head? =
      some (LogEvent.infoResponseSummary flow.id resp.status_code
        resp.headers) := by
  unfold response_cb
  rw [h]
  by_cases hc : _looks_like_codex flow <;> simp [hc, Trace.prepend]

/-- C8 witness: the summary is the first log line on the concrete classified
flow. -/
theorem C8_witness :
    (response_cb jsonLoads flowSafe).logs.head? =
      some (LogEvent.infoResponseSummary "f5" 200 []) :=
  C8_summary_always_logged jsonLoads flowSafe
    ⟨200, [],
     "data: \x7b\"type\": \"done\", \"model\": \"gpt-5\"\x7d\ndata: [DONE]"⟩ rfl

/-- Accesses performed inside the response loop are only the re-reads of the
flow id and the URL for the model log line (lines 100 and 104). -/
theorem responseLoop_acc_mem (fid url : String) (steps : List SseStep)
    (a : FlowAccess) (h : a ∈ (responseLoop fid url steps).acc) :
    a = FlowAccess.flowId ∨ a = FlowAccess.reqUrl := by
  induction steps with
  | nil => cases h
  | cons s rest ih =>
    cases s with
    | warn e c =>
      simp only [responseLoop, Trace.prepend, List.nil_append] at h
      exact ih h
    | raiseAttr => cases h
    | yield et kvs =>
      revert h
      simp only [responseLoop]
      cases hre : reasoningEffortOf kvs with
      | error e => intro h; cases h
      | ok reff =>
        cases hm : _extract_model kvs with
        | none => intro h; exact ih h
        | some m =>
          by_cases ht : m.truthy
          · simp only [ht, if_true, Trace.prepend, List.cons_append,
              List.nil_append]
            intro h
            simp only [List.mem_cons] at h
            rcases h with h | h | h
            · exact Or.inl h
            · exact Or.inr h
            · exact ih h
          · simp only [ht, if_false]
            intro h
            exact ih h

/-- The request callback touches the flow through one of four access
sequences, depending on how far it gets. -/
theorem request_cb_acc_cases (loads : String → Except String Json)
    (flow : Flow) :
    (request_cb loads flow).acc = [FlowAccess.reqUrl] ∨
    (request_cb loads flow).acc = [FlowAccess.reqUrl, FlowAccess.reqMethod] ∨
    (request_cb loads flow).acc =
      [FlowAccess.reqUrl, FlowAccess.reqMethod, FlowAccess.reqBody] ∨
    (request_cb loads flow).acc =
      [FlowAccess.reqUrl, FlowAccess.reqMethod, FlowAccess.reqBody,
       FlowAccess.flowId] := by
  unfold request_cb
  split
  · simp
  · split
    · simp
    · split
      · simp
      · split <;> simp

/-- The response callback touches the flow through one of three access
sequences: the empty-response guard, the unclassified summary, or the
classified path followed by the loop's re-reads. -/
theorem response_cb_acc_cases (loads : String → Except String Json)
    (flow : Flow) :
    (response_cb loads flow).acc = [FlowAccess.respPresent] ∨
    (response_cb loads flow).acc =
      [FlowAccess.respPresent, FlowAccess.flowId, FlowAccess.respStatus,
       FlowAccess.respHeaders, FlowAccess.reqUrl] ∨
    ∃ steps, (response_cb loads flow).acc =
      [FlowAccess.respPresent, FlowAccess.flowId, FlowAccess.respStatus,
       FlowAccess.respHeaders, FlowAccess.reqUrl, FlowAccess.respBody] ++
        (responseLoop flow.id flow.request.pretty_url steps).acc := by
  unfold response_cb
  split
  · left; rfl
  · split
    · right; right; exact ⟨_, rfl⟩
    · right; left; rfl

/-- C9: neither callback mutates the flow (no `mutate` access is ever
performed), and each callback reads the corresponding body text at most
once. -/
theorem C9_no_mutation_body_read_once (loads : String → Except String Json)
    (flow : Flow) :
    (response_cb loads flow).acc.countP FlowAccess.isRespBodyRead ≤ 1 ∧
    (request_cb loads flow).acc.countP FlowAccess.isReqBodyRead ≤ 1 ∧
    (response_cb loads flow).acc.any FlowAccess.isMutate = false ∧
    (request_cb loads flow).acc.any FlowAccess.isMutate = false := by
  have hloopCount : ∀ steps,
      (responseLoop flow.id flow.request.pretty_url steps).acc.countP
        FlowAccess.isRespBodyRead = 0 := by
    intro steps
    rw [List.countP_eq_zero]
    intro a ha
    rcases responseLoop_acc_mem _ _ _ a ha with h | h <;> rw [h] <;> decide
  have hloopMut : ∀ steps,
      (responseLoop flow.id flow.request.pretty_url steps).acc.any
        FlowAccess.isMutate = false := by
    intro steps
    rw [List.any_eq_false]
    intro a ha
    rcases responseLoop_acc_mem _ _ _ a ha with h | h <;> rw [h] <;> decide
  have hreq := request_cb_acc_cases loads flow
  have hresp := response_cb_acc_cases loads flow
  refine ⟨?_, ?_, ?_, ?_⟩
  · rcases hresp with h | h | ⟨steps, h⟩
    · rw [h]; decide
    · rw [h]; decide
    · rw [h, List.countP_append, hloopCount steps]; decide
  · rcases hreq with h | h | h | h <;> rw [h] <;> decide
  · rcases hresp with h | h | ⟨steps, h⟩
    · rw [h]; decide
    · rw [h]; decide
    · rw [h, List.any_append, hloopMut steps]; decide
  · rcases hreq with h | h | h | h <;> rw [h] <;> decide

/-- C10: at each fallback point (top-level `model` to `response.model`,
`response.reasoning` to `response.metadata.reasoning`, `effort` to
`effort_level`), a key bound to a falsy value behaves exactly as if the key
were absent: the computation equals the one on the dict with the key
removed. -/
theorem C10_falsy_treated_as_absent :
    (∀ (kvs : List (String × Json)) (v : Json),
      dictGet kvs "model" = some v → v.truthy = false →
      _extract_model kvs = _extract_model (removeKey "model" kvs)) ∧
    (∀ (rs : List (String × Json)) (v : Json),
      dictGet rs "reasoning" = some v → v.truthy = false →
      reasoningFromResponse rs =
        reasoningFromResponse (removeKey "reasoning" rs)) ∧
    (∀ (rk : List (String × Json)) (v : Json),
      dictGet rk "effort" = some v → v.truthy = false →
      effortFromReasoning rk =
        effortFromReasoning (removeKey "effort" rk)) := by
  refine ⟨?_, ?_, ?_⟩
  · intro kvs v hm hv
    simp only [_extract_model]
    rw [hm, dictGet_removeKey_self,
        dictGet_removeKey_ne "model" "response" (by decide) kvs]
    simp [optTruthy, hv]
  · intro rs v hm hv
    simp only [reasoningFromResponse]
    rw [hm, dictGet_removeKey_self]
    simp [optTruthy, hv, dictGetD,
      dictGet_removeKey_ne "reasoning" "metadata" (by decide) rs]
  · intro rk v hm hv
    simp only [effortFromReasoning]
    rw [hm, dictGet_removeKey_self,
        dictGet_removeKey_ne "effort" "effort_level" (by decide) rk]
    simp [optTruthy, hv]

/-- C10 witness: the three fallback points on concrete dicts with falsy
bindings (`""`, `null`, `""`). -/
theorem C10_witness :
    _extract_model exFalsyModel =
      _extract_model (removeKey "model" exFalsyModel) ∧
    reasoningFromResponse exFalsyReasoning =
      reasoningFromResponse (removeKey "reasoning" exFalsyReasoning) ∧
    effortFromReasoning exFalsyEffort =
      effortFromReasoning (removeKey "effort" exFalsyEffort) :=
  ⟨C10_falsy_treated_as_absent.1 exFalsyModel (Json.str "") rfl rfl,
   C10_falsy_treated_as_absent.2.1 exFalsyReasoning Json.null rfl rfl,
   C10_falsy_treated_as_absent.2.2 exFalsyEffort (Json.str "") rfl rfl⟩

/-- C2 counterexample: on a classified POST flow whose body is the valid
JSON text `[]` — not an object — the request inspector raises
`AttributeError` (the `payload.get` call at line 126 sits outside the `try`
block), so "the request inspector never raises, for any request body" is
false as stated. -/
theorem C2_counterexample :
    (request_cb jsonLoads flowBodyArr).err = some PyErr.attributeError := rfl

/-- C2 amended: if parsing the request body fails in any way the inspector
returns silently without logging; and the inspector does not raise provided
any successfully parsed body is a JSON object. -/
theorem C2_request_silent_amended (loads : String → Except String Json)
    (flow : Flow) :
    ((∀ b, flow.request.body = some b → ∃ e, loads b = Except.error e) →
      (request_cb loads flow).logs = [] ∧ (request_cb loads flow).err = none) ∧
    ((∀ b j, flow.request.body = some b → loads b = Except.ok j →
        j.isObj = true) →
      (request_cb loads flow).err = none) := by
  constructor
  · intro hfail
    unfold request_cb
    split
    · exact ⟨rfl, rfl⟩
    · split
      · exact ⟨rfl, rfl⟩
      · split
        · exact ⟨rfl, rfl⟩
        · rename_i b heq
          obtain ⟨e, he⟩ := hfail b heq
          rw [he]
          exact ⟨rfl, rfl⟩
  · intro hok
    unfold request_cb
    split
    · rfl
    · split
      · rfl
      · split
        · rfl
        · rename_i b heq
          cases hl : loads b with
          | error e => rfl
          | ok j =>
            have hobj := hok b j heq hl
            cases j with
            | obj kvs => rfl
            | null => exact Bool.noConfusion hobj
            | bool v => exact Bool.noConfusion hobj
            | num n => exact Bool.noConfusion hobj
            | str s => exact Bool.noConfusion hobj
            | arr xs => exact Bool.noConfusion hobj

/-- C2 witness: the amended rule applied to a classified POST flow with a
non-JSON body (silent skip) and to one with a JSON-object body (no
raise). -/
theorem C2_witness :
    ((request_cb jsonLoads flowBodyBad).logs = [] ∧
      (request_cb jsonLoads flowBodyBad).err = none) ∧
    (request_cb jsonLoads flowBodyObj).err = none := by
  constructor
  · apply (C2_request_silent_amended jsonLoads flowBodyBad).1
    intro b hb
    have hx : some "\x7bnot json" = some b := hb
    injection hx with hx2
    subst hx2
    exact ⟨"Expecting value", rfl⟩
  · apply (C2_request_silent_amended jsonLoads flowBodyObj).2
    intro b j hb hj
    have hx : some "\x7b\"prompt_cache_key\": \"abc\"\x7d" = some b := hb
    injection hx with hx2
    subst hx2
    have hy : jsonLoads "\x7b\"prompt_cache_key\": \"abc\"\x7d" =
        Except.ok (Json.obj [("prompt_cache_key", Json.str "abc")]) := rfl
    rw [hy] at hj
    injection hj with hy2
    rw [← hy2]
    rfl

/-- C1 counterexample: on a classified flow whose response body is
`data: 5` — a `data:` line whose payload is valid JSON but not an object —
the response callback raises `AttributeError` (the `parsed.get` call at
line 40), so "the response callback completes without raising for every
response body text" is false as stated. -/
theorem C1_counterexample :
    (response_cb jsonLoads flowDataFive).err = some PyErr.attributeError := rfl

/-- The reasoning resolution returns normally when `reasoning` is truthy, or
`metadata` is absent, or `metadata` is bound to an object. -/
theorem reasoningFromResponse_ok_cases (rs : List (String × Json))
    (hsafe : dictGet rs "metadata" = none ∨
      (∃ m, dictGet rs "metadata" = some (Json.obj m)) ∨
      optTruthy (dictGet rs "reasoning") = true) :
    ∃ r, reasoningFromResponse rs = Except.ok r := by
  simp only [reasoningFromResponse, dictGetD]
  cases hbt : optTruthy (dictGet rs "reasoning") with
  | true => exact ⟨_, rfl⟩
  | false =>
    rcases hsafe with hm | ⟨m, hm⟩ | hbt2
    · rw [hm]; exact ⟨_, rfl⟩
    · rw [hm]; exact ⟨_, rfl⟩
    · rw [hbt2] at hbt; exact Bool.noConfusion hbt

/-- Safe payload objects make the reasoning-effort computation of the loop
body return normally. -/
theorem reasoningEffortOf_safe (kvs : List (String × Json))
    (h : payloadSafe (Json.obj kvs) = true) :
    exceptIsOk (reasoningEffortOf kvs) = true := by
  have hps : (match dictGet kvs "response" with
      | some (Json.obj rs) =>
        optTruthy (dictGet rs "reasoning") ||
          (match dictGet rs "metadata" with
           | some v => v.isObj
           | none => true)
      | _ => true) = true := h
  revert hps
  simp only [reasoningEffortOf]
  cases hr : dictGet kvs "response" with
  | none => intro _; rfl
  | some resp =>
    cases resp with
    | obj rs =>
      intro hps
      have hps2 : (optTruthy (dictGet rs "reasoning") ||
          (match dictGet rs "metadata" with
           | some v => v.isObj
           | none => true)) = true := hps
      show exceptIsOk
        (match reasoningFromResponse rs with
         | Except.error e => Except.error e
         | Except.ok reasoning =>
           match reasoning with
           | some (Json.obj rk) => Except.ok (effortFromReasoning rk)
           | _ => Except.ok none) = true
      have hdisj : dictGet rs "metadata" = none ∨
          (∃ m, dictGet rs "metadata" = some (Json.obj m)) ∨
          optTruthy (dictGet rs "reasoning") = true := by
        cases hbt : optTruthy (dictGet rs "reasoning") with
        | true => exact Or.inr (Or.inr rfl)
        | false =>
          rw [hbt, Bool.false_or] at hps2
          revert hps2
          cases hm : dictGet rs "metadata" with
          | none => intro _; exact Or.inl rfl
          | some v =>
            intro h2
            have h3 : v.isObj = true := h2
            cases v with
            | obj m => exact Or.inr (Or.inl ⟨m, rfl⟩)
            | null => exact Bool.noConfusion h3
            | bool b => exact Bool.noConfusion h3
            | num n => exact Bool.noConfusion h3
            | str s => exact Bool.noConfusion h3
            | arr xs => exact Bool.noConfusion h3
      obtain ⟨r, hr2⟩ := reasoningFromResponse_ok_cases rs hdisj
      rw [hr2]
      cases r with
      | none => rfl
      | some j => cases j <;> rfl
    | null => intro _; rfl
    | bool b => intro _; rfl
    | num n => intro _; rfl
    | str s => intro _; rfl
    | arr xs => intro _; rfl

/-- The response loop finishes without an uncaught exception when no step is
the generator raise and every yielded payload has a normally-returning
reasoning-effort computation. -/
theorem responseLoop_err_none (fid url : String) (steps : List SseStep)
    (h : ∀ s ∈ steps, s ≠ SseStep.raiseAttr ∧
      ∀ et kvs, s = SseStep.yield et kvs →
        exceptIsOk (reasoningEffortOf kvs) = true) :
    (responseLoop fid url steps).err = none := by
  induction steps with
  | nil => rfl
  | cons s rest ih =>
    have hs := h s (List.mem_cons_self s rest)
    have hrest := fun s' hs' => h s' (List.mem_cons_of_mem s hs')
    cases s with
    | warn e c => exact ih hrest
    | raiseAttr => exact absurd rfl hs.1
    | yield et kvs =>
      have hok := hs.2 et kvs rfl
      revert hok
      simp only [responseLoop]
      cases hre : reasoningEffortOf kvs with
      | error e => intro hok; exact Bool.noConfusion hok
      | ok reff =>
        intro hok
        cases hm : _extract_model kvs with
        | none => exact ih hrest
        | some m =>
          show (if m.truthy = true then
              Trace.prepend [LogEvent.infoSseModel fid et m reff url]
                [FlowAccess.flowId, FlowAccess.reqUrl]
                (responseLoop fid url rest)
            else responseLoop fid url rest).err = none
          cases htb : m.truthy with
          | true => exact ih hrest
          | false => exact ih hrest

/-- Under the safety hypothesis on decoded payloads, every generator step is
benign: never the raise, and yields only payloads whose loop body returns
normally. -/
theorem sseSteps_benign (loads : String → Except String Json)
    (texts : List String)
    (h : ∀ p ∈ texts, ∀ j, loads p = Except.ok j → payloadSafe j = true) :
    ∀ s ∈ sseSteps loads texts, s ≠ SseStep.raiseAttr ∧
      ∀ et kvs, s = SseStep.yield et kvs →
        exceptIsOk (reasoningEffortOf kvs) = true := by
  induction texts with
  | nil => intro s hs; exact absurd hs (by simp [sseSteps])
  | cons p rest ih =>
    intro s hs
    have hp := h p (List.mem_cons_self p rest)
    have hrest : ∀ q ∈ rest, ∀ j, loads q = Except.ok j →
        payloadSafe j = true :=
      fun q hq => h q (List.mem_cons_of_mem p hq)
    revert hs
    simp only [sseSteps]
    cases hl : loads p with
    | error e =>
      intro hs
      rcases List.mem_cons.mp hs with h1 | h1
      · subst h1
        exact ⟨fun hcon => SseStep.noConfusion hcon,
          fun et kvs hyk => SseStep.noConfusion hyk⟩
      · exact ih hrest s h1
    | ok j =>
      cases j with
      | obj kvs =>
        intro hs
        rcases List.mem_cons.mp hs with h1 | h1
        · subst h1
          refine ⟨fun hcon => SseStep.noConfusion hcon, ?_⟩
          intro et kvs2 hyk
          injection hyk with he1 he2
          rw [← he2]
          exact reasoningEffortOf_safe kvs (hp (Json.obj kvs) hl)
        · exact ih hrest s h1
      | null => intro hs; exact Bool.noConfusion (hp Json.null hl)
      | bool b => intro hs; exact Bool.noConfusion (hp (Json.bool b) hl)
      | num n => intro hs; exact Bool.noConfusion (hp (Json.num n) hl)
      | str s2 => intro hs; exact Bool.noConfusion (hp (Json.str s2) hl)
      | arr xs => intro hs; exact Bool.noConfusion (hp (Json.arr xs) hl)

/-- C1 amended: the response callback completes without raising provided
every decoded `data:` payload is safe — a JSON object which, when its
`response` field is an object whose `reasoning` lookup is falsy, binds
`metadata` (if at all) to an object.  (The counterexample shows the
unconditional claim fails for non-object payloads; wrong-typed `metadata`
fields fail likewise.) -/
theorem C1_response_no_raise_amended (loads : String → Except String Json)
    (flow : Flow)
    (h : ∀ resp, flow.response = some resp →
      ∀ p ∈ ssePayloadTexts resp.body, ∀ j, loads p = Except.ok j →
        payloadSafe j = true) :
    (response_cb loads flow).err = none := by
  unfold response_cb
  cases hresp : flow.response with
  | none => rfl
  | some resp =>
    show (if _looks_like_codex flow = true then
        Trace.prepend
          [LogEvent.infoResponseSummary flow.id resp.status_code resp.headers]
          ([FlowAccess.respPresent, FlowAccess.flowId, FlowAccess.respStatus,
            FlowAccess.respHeaders, FlowAccess.reqUrl] ++
            [FlowAccess.respBody])
          (responseLoop flow.id flow.request.pretty_url
            (_iter_sse_payloads loads resp.body))
      else
        ⟨[LogEvent.infoResponseSummary flow.id resp.status_code resp.headers],
         none,
         [FlowAccess.respPresent, FlowAccess.flowId, FlowAccess.respStatus,
          FlowAccess.respHeaders, FlowAccess.reqUrl]⟩).err = none
    by_cases hc : _looks_like_codex flow = true
    · rw [if_pos hc]
      exact responseLoop_err_none _ _ _
        (sseSteps_benign loads (ssePayloadTexts resp.body) (h resp hresp))
    · rw [if_neg hc]

/-- C1 witness: the amended no-raise rule applied to the concrete classified
flow whose body holds one well-formed object payload and the `[DONE]`
sentinel. -/
theorem C1_witness : (response_cb jsonLoads flowSafe).err = none := by
  apply C1_response_no_raise_amended
  intro resp hresp p hp j hj
  have hx : some (⟨200, [],
      "data: \x7b\"type\": \"done\", \"model\": \"gpt-5\"\x7d\ndata: [DONE]"⟩ :
      Response) = some resp := hresp
  injection hx with hx2
  subst hx2
  have htexts : ssePayloadTexts
      (⟨200, [],
        "data: \x7b\"type\": \"done\", \"model\": \"gpt-5\"\x7d\ndata: [DONE]"⟩ :
        Response).body = ["\x7b\"type\": \"done\", \"model\": \"gpt-5\"\x7d"] := rfl
  rw [htexts] at hp
  have hp2 : p = "\x7b\"type\": \"done\", \"model\": \"gpt-5\"\x7d" :=
    List.mem_singleton.mp hp
  subst hp2
  have hy : jsonLoads "\x7b\"type\": \"done\", \"model\": \"gpt-5\"\x7d" =
      Except.ok (Json.obj [("type", Json.str "done"),
        ("model", Json.str "gpt-5")]) := rfl
  rw [hy] at hj
  injection hj with hy2
  rw [← hy2]
  rfl

end MitmCodex
